import Mathlib

/-!
ESP_browser: the RFB engine and framebuffer of `src/main.cpp`.

A shallow embedding of the framebuffer mutators (`fb_clear`, `lhp_render_cb`), the
handshake (`vnc_handshake`) and the loop body of `vnc_task`.

Modelling conventions.

* `framebuffer` is a map from a cell index to the 16-bit value of the cell.  The index is
  an `Int` counted in `uint16_t` units from the start of the array, so the array itself is
  the cells `0 .. FB_WIDTH * FB_HEIGHT - 1`; any other index is memory outside the array,
  which lets an out-of-bounds store of the C code be observed instead of hidden.
* C `int` arguments are `Int`.  The theorems below only use values for which no 32-bit
  operation of the source overflows.
* The client connection is a `Net`: the bytes the transport has accepted so far, and
  scripts giving what the coming `accept`, `send` and `recv` calls return.  The source
  ignores every value returned by `send`; the model computes it and drops it likewise.
* The target (ESP32-C3) is little-endian, so `(uint8_t*)framebuffer` lists each pixel low
  byte first, and `htonl`/`htons` leave the most significant byte first in memory.
* The source is read as C: the array `update[10]` is given eleven initialisers, of which a
  C compiler keeps the first ten.
-/

namespace ESPBrowser

/-! ## Constants -/

def FB_WIDTH : Nat := 320

def FB_HEIGHT : Nat := 240

/-! ## The network as seen by the program -/

/-- The world on the other side of the socket calls. -/
structure Net where
  /-- bytes the transport accepted from `send`, oldest first -/
  wire : List Nat
  /-- values the coming `send` calls return; once exhausted every `send` accepts all of
  its buffer -/
  sendResults : List Int
  /-- data the coming `recv` calls find; once exhausted `recv` returns -1 -/
  rx : List (List Nat)
  /-- values the coming `accept` calls return; once exhausted `accept` never returns -/
  accepts : List Int

/-- A connection on which nothing has been sent yet, every send succeeds in full, and the
client's data arrives as the receives `rx`. -/
def Net.fresh (rx : List (List Nat)) : Net :=
  { wire := [], sendResults := [], rx := rx, accepts := [] }

/-- The call `send(client, data, len, 0)` with `data` the `len` bytes passed: the
transport takes a prefix of the buffer (all of it, part of it, or on failure none) and
reports how much. -/
def send (net : Net) (data : List Nat) : Net × Int :=
  match net.sendResults with
  | [] => ({ net with wire := net.wire ++ data }, data.length)
  | r :: rs =>
    if r < 0 then ({ net with sendResults := rs }, -1)
    else ({ net with wire := net.wire ++ data.take r.toNat, sendResults := rs },
          min r data.length)

/-- The call `recv(client, buf, len, flags)`: returns the count `recv` reports and the
bytes delivered.  Bytes of the current receive beyond `len` stay queued. -/
def recv (net : Net) (len : Nat) : Net × Int × List Nat :=
  match net.rx with
  | [] => (net, -1, [])
  | chunk :: more =>
    if chunk.length ≤ len then ({ net with rx := more }, chunk.length, chunk)
    else ({ net with rx := chunk.drop len :: more }, len, chunk.take len)

/-- The call `accept(vnc_sock, NULL, NULL)`: `none` when the call blocks forever. -/
def accept (net : Net) : Option (Net × Int) :=
  match net.accepts with
  | [] => none
  | fd :: more => some ({ net with accepts := more }, fd)

/-- The four bytes in memory of `htonl(v)`. -/
def htonl (v : Nat) : List Nat :=
  [v / 16777216 % 256, v / 65536 % 256, v / 256 % 256, v % 256]

/-- The two bytes in memory of `htons(v)`. -/
def htons (v : Nat) : List Nat :=
  [v / 256 % 256, v % 256]

/-! ## Program state -/

/-- The globals of `main.cpp` used by the RFB engine, and the receive buffer `buf` of
`vnc_task`, which lives across loop iterations. -/
structure State where
  framebuffer : Int → Nat
  fb_dirty : Bool
  vnc_client : Int
  buf : Nat → Nat

/-- The pixel at column `x`, row `y`: `framebuffer[y * FB_WIDTH + x]`. -/
def State.pixel (st : State) (x y : Int) : Nat :=
  st.framebuffer (y * FB_WIDTH + x)

/-- Storing `v` into cell `i`. -/
def store (fb : Int → Nat) (i : Int) (v : Nat) : Int → Nat :=
  fun j => if j = i then v else fb j

/-! ## Framebuffer and render callback -/

/-- The value of a `uint16_t` both of whose bytes `memset` set to `b`. -/
def memsetCell (b : Nat) : Nat := b + 256 * b

/-- Source `fb_clear` (lines 41-43):
`memset(framebuffer, color >> 8, sizeof(framebuffer));`
`memset` converts its value argument to `unsigned char` and writes it to every byte. -/
def fb_clear (st : State) (color : Nat) : State :=
  let b := (color >>> 8) % 256
  { st with framebuffer := fun j =>
      if 0 ≤ j ∧ j < ((FB_WIDTH * FB_HEIGHT : Nat) : Int) then memsetCell b
      else st.framebuffer j }

/-- Element `i` of `(uint16_t*)linebuf`. -/
def src16 (linebuf : Nat → Nat) (i : Nat) : Nat :=
  linebuf (2 * i) % 256 + 256 * (linebuf (2 * i + 1) % 256)

/-- The loop bound of `lhp_render_cb`:
`int pixels = (w < FB_WIDTH - x) ? w : FB_WIDTH - x;` -/
def lhp_render_cb_pixels (x w : Int) : Int :=
  if w < (FB_WIDTH : Int) - x then w else (FB_WIDTH : Int) - x

/-- The cell indices `lhp_render_cb` stores to, in order: nothing when the guard
`y >= FB_HEIGHT || x >= FB_WIDTH` returns early, else `fb_line[i]` for
`i = 0 .. pixels - 1` with `fb_line = framebuffer + y * FB_WIDTH + x`. -/
def lhp_render_cb_writes (x y w : Int) : List Int :=
  if y ≥ (FB_HEIGHT : Int) ∨ x ≥ (FB_WIDTH : Int) then []
  else (List.range (lhp_render_cb_pixels x w).toNat).map
    fun (i : Nat) => y * (FB_WIDTH : Int) + x + (i : Int)

/-- Source `lhp_render_cb` (lines 45-55). -/
def lhp_render_cb (st : State) (x y w : Int) (linebuf : Nat → Nat) : State :=
  if y ≥ (FB_HEIGHT : Int) ∨ x ≥ (FB_WIDTH : Int) then st
  else
    let pixels := lhp_render_cb_pixels x w
    let fb_line : Int := y * (FB_WIDTH : Int) + x
    { st with
      framebuffer := (List.range pixels.toNat).foldl
        (fun (fb : Int → Nat) (i : Nat) => store fb (fb_line + (i : Int)) (src16 linebuf i))
        st.framebuffer
      fb_dirty := true }

/-- The part of `browser_load_url` (lines 58-65) that touches the framebuffer before the
external renderer is started: `fb_clear(0xF800);`. -/
def browser_load_url (st : State) : State :=
  fb_clear st 0xF800

/-! ## Handshake -/

/-- The bytes of the C string literal `"RFB 003.008\n"`. -/
def proto : List Nat := "RFB 003.008\n".toList.map Char.toNat

/-- The array `pf[20]`: thirteen initialisers, the rest zero. -/
def pf : List Nat :=
  [0, 16, 1, 0, 1, 16, 8, 0, 0, 0, 11, 5, 0] ++ List.replicate 7 0

/-- Source `vnc_handshake` (lines 68-101).  `shared` keeps its initial 0 when the
`recv` delivers nothing. -/
def vnc_handshake (net : Net) : Net :=
  let net := (send net (proto.take 12)).1
  let net := (send net (htonl 1)).1
  let net := (send net (htonl 0)).1
  let (net, _, got) := recv net 1
  let shared := got.headD 0
  let net := (send net [shared]).1
  let net := (send net (htonl 2)).1
  let net := (send net ("LHP".toList.map Char.toNat)).1
  let net := (send net (htons FB_WIDTH)).1
  let net := (send net (htons FB_HEIGHT)).1
  (send net (pf.take 20)).1

/-! ## The loop body of `vnc_task` -/

/-- The array `update[10]` as a C compiler builds it from the eleven initialisers. -/
def update : List Nat :=
  ([3, 0, 1, 0, 0, 0, FB_WIDTH >>> 8, FB_WIDTH &&& 0xFF,
    FB_HEIGHT >>> 8, FB_HEIGHT &&& 0xFF, 0] : List Nat).take 10

/-- The `sizeof(framebuffer)` bytes at `(uint8_t*)framebuffer`. -/
def framebufferBytes (fb : Int → Nat) : List Nat :=
  (List.range (FB_WIDTH * FB_HEIGHT)).flatMap
    fun (i : Nat) => [fb (i : Int) % 256, fb (i : Int) / 256 % 256]

/-- Lines 117-123: accept a client when none is connected, and shake hands with it. -/
def accept_step (st : State) (net : Net) : Option (State × Net) :=
  if st.vnc_client ≤ 0 then
    match accept net with
    | none => none
    | some (net, fd) =>
      if fd > 0 then some ({ st with vnc_client := fd }, vnc_handshake net)
      else some ({ st with vnc_client := fd }, net)
  else some (st, net)

/-- Lines 125-136: the full framebuffer update. -/
def update_step (st : State) (net : Net) : State × Net :=
  if st.vnc_client > 0 ∧ st.fb_dirty = true then
    let net := (send net (update.take 10)).1
    let net := (send net (framebufferBytes st.framebuffer)).1
    ({ st with fb_dirty := false }, net)
  else (st, net)

/-- What `recv` leaves in `buf` after delivering `data` at its start. -/
def fillBuf (buf : Nat → Nat) (data : List Nat) : Nat → Nat :=
  fun i => if i < data.length then data.getD i 0 % 256 else buf i

/-- Lines 139-148: the input handler. `buf` holds `uint8_t`, `x` and `y` are
`uint16_t`. -/
def input_step (st : State) (net : Net) : State × Net :=
  if st.vnc_client > 0 then
    match recv net 256 with
    | (net, n, data) =>
      if n > 0 then
        let buf := fillBuf st.buf data
        let st := { st with buf := buf }
        if buf 0 % 256 = 3 then
          let x := ((buf 2 % 256) <<< 8 ||| buf 3 % 256) % 65536
          let y := ((buf 5 % 256) <<< 8 ||| buf 6 % 256) % 65536
          if x < FB_WIDTH ∧ y < FB_HEIGHT then
            ({ st with
               framebuffer := store st.framebuffer ((y * FB_WIDTH + x : Nat) : Int) 0xFFFF
               fb_dirty := true }, net)
          else (st, net)
        else (st, net)
      else (st, net)
  else (st, net)

/-- One iteration of the `while (1)` loop of `vnc_task` (lines 116-151); `none` when
`accept` never returns. -/
def vnc_task_tick (st : State) (net : Net) : Option (State × Net) :=
  match accept_step st net with
  | none => none
  | some (st, net) =>
    let (st, net) := update_step st net
    some (input_step st net)

/-! ## Client messages, as laid out on the wire -/

/-- A PointerEvent: type 3, button mask, x and y big-endian. -/
def clientPointerEvent (buttonMask x y : Nat) : List Nat :=
  [3, buttonMask, x / 256 % 256, x % 256, y / 256 % 256, y % 256]

/-- A state with an active client, an all-zero framebuffer and an all-zero `buf`. -/
def blankState (dirty : Bool) : State :=
  { framebuffer := fun _ => 0, fb_dirty := dirty, vnc_client := 1, buf := fun _ => 0 }

/-- A connection on which the next two `send` calls fail and no client data is pending. -/
def failingNet : Net :=
  { wire := [], sendResults := [-1, -1], rx := [], accepts := [] }

theorem proto_bytes : proto = [82, 70, 66, 32, 48, 48, 51, 46, 48, 48, 56, 10] := by decide

theorem update_bytes : update = [3, 0, 1, 0, 0, 0, 1, 64, 0, 240] := by decide

theorem flatMap_pair_length {α : Type} (f g : α → Nat) (l : List α) :
    (l.flatMap fun a => [f a, g a]).length = 2 * l.length := by
  induction l with
  | nil => rfl
  | cons a l ih => simp [List.flatMap_cons, ih]; omega

theorem framebufferBytes_length (fb : Int → Nat) :
    (framebufferBytes fb).length = 2 * (FB_WIDTH * FB_HEIGHT) := by
  unfold framebufferBytes
  rw [flatMap_pair_length, List.length_range]

/-- The big-endian 16-bit decode written `(hi << 8) | lo` in the source. -/
theorem shift_or_bytes (hi lo : Nat) :
    ((hi % 256) <<< 8 ||| lo % 256) % 65536 = 256 * (hi % 256) + lo % 256 := by
  have hlo : lo % 256 < 2 ^ 8 := by norm_num; exact Nat.mod_lt _ (by norm_num)
  have h := Nat.mul_add_lt_is_or hlo (hi % 256)
  rw [Nat.shiftLeft_eq, Nat.mul_comm, ← h]
  have : hi % 256 < 256 := Nat.mod_lt _ (by norm_num)
  norm_num at hlo ⊢
  omega

/-- The store loop of `lhp_render_cb`, cell by cell. -/
theorem foldl_store_apply (fb : Int → Nat) (base : Int) (src : Nat → Nat) (n : Nat) (j : Int) :
    (List.range n).foldl
        (fun (fb : Int → Nat) (i : Nat) => store fb (base + (i : Int)) (src i)) fb j =
      if base ≤ j ∧ j < base + n then src (j - base).toNat else fb j := by
  induction n with
  | zero =>
    have : ¬ (base ≤ j ∧ j < base + ((0 : Nat) : Int)) := by omega
    rw [if_neg this]
    rfl
  | succ n ih =>
    rw [List.range_succ, List.foldl_append, List.foldl_cons, List.foldl_nil]
    by_cases hj : j = base + (n : Int)
    · have h1 : base ≤ j ∧ j < base + ((n + 1 : Nat) : Int) := by omega
      have h2 : (j - base).toNat = n := by omega
      rw [if_pos h1, h2]
      simp [store, hj]
    · show (if j = base + (n : Int) then src n else _) = _
      rw [if_neg hj, ih]
      by_cases h : base ≤ j ∧ j < base + (n : Int)
      · have h1 : base ≤ j ∧ j < base + ((n + 1 : Nat) : Int) := by omega
        rw [if_pos h, if_pos h1]
      · have h1 : ¬ (base ≤ j ∧ j < base + ((n + 1 : Nat) : Int)) := by omega
        rw [if_neg h, if_neg h1]

/-- A receive that fits the buffer is delivered whole. -/
theorem recv_fits (net : Net) (chunk : List Nat) (more : List (List Nat)) (len : Nat)
    (hrx : net.rx = chunk :: more) (hlen : chunk.length ≤ len) :
    recv net len = ({ net with rx := more }, (chunk.length : Int), chunk) := by
  unfold recv
  rw [hrx]
  simp [hlen]

/-- The update step clears the dirty flag of an active connection whatever the sends
return. -/
theorem update_step_dirty_of_active (st : State) (net : Net) (hc : st.vnc_client > 0) :
    (update_step st net).1.fb_dirty = false := by
  unfold update_step
  by_cases hd : st.fb_dirty = true
  · simp [hc, hd]
  · simp [hd]

/-- The input handler on a non-empty receive that fits the buffer, with the two
`(hi << 8) | lo` decodes written arithmetically. -/
theorem input_step_recv (st : State) (net : Net) (chunk : List Nat) (more : List (List Nat))
    (hc : st.vnc_client > 0) (hrx : net.rx = chunk :: more) (hne : chunk ≠ [])
    (hlen : chunk.length ≤ 256) :
    input_step st net =
      (if fillBuf st.buf chunk 0 % 256 = 3 ∧
          256 * (fillBuf st.buf chunk 2 % 256) + fillBuf st.buf chunk 3 % 256 < 320 ∧
          256 * (fillBuf st.buf chunk 5 % 256) + fillBuf st.buf chunk 6 % 256 < 240 then
        { framebuffer := store st.framebuffer
            (((256 * (fillBuf st.buf chunk 5 % 256) + fillBuf st.buf chunk 6 % 256) * 320
              + (256 * (fillBuf st.buf chunk 2 % 256) + fillBuf st.buf chunk 3 % 256) : Nat) : Int)
            0xFFFF
          fb_dirty := true
          vnc_client := st.vnc_client
          buf := fillBuf st.buf chunk }
      else { st with buf := fillBuf st.buf chunk },
      { net with rx := more }) := by
  have hn : (chunk.length : Int) > 0 := by
    cases chunk with
    | nil => exact absurd rfl hne
    | cons a l => simp
  unfold input_step
  rw [if_pos hc, recv_fits net _ more 256 hrx hlen]
  simp only []
  rw [if_pos hn, shift_or_bytes, shift_or_bytes]
  by_cases h0 : fillBuf st.buf chunk 0 % 256 = 3
  · rw [if_pos h0]
    by_cases hxy : 256 * (fillBuf st.buf chunk 2 % 256) + fillBuf st.buf chunk 3 % 256 < 320 ∧
          256 * (fillBuf st.buf chunk 5 % 256) + fillBuf st.buf chunk 6 % 256 < 240
    · rw [if_pos (show _ ∧ _ from ⟨h0, hxy⟩)]
      simp only [FB_WIDTH, FB_HEIGHT]
      rw [if_pos hxy]
    · rw [if_neg (show ¬ (_ ∧ _) from fun h => hxy h.2)]
      simp only [FB_WIDTH, FB_HEIGHT]
      rw [if_neg hxy]
  · rw [if_neg h0, if_neg (show ¬ (_ ∧ _) from fun h => h0 h.1)]

/-- Cells that are not among the recorded writes of `lhp_render_cb` keep their value. -/
theorem lhp_render_cb_untouched (st : State) (x y w : Int) (linebuf : Nat → Nat) (j : Int)
    (hj : j ∉ lhp_render_cb_writes x y w) :
    (lhp_render_cb st x y w linebuf).framebuffer j = st.framebuffer j := by
  unfold lhp_render_cb
  unfold lhp_render_cb_writes at hj
  by_cases hg : y ≥ (FB_HEIGHT : Int) ∨ x ≥ (FB_WIDTH : Int)
  · rw [if_pos hg]
  · rw [if_neg hg] at hj
    rw [if_neg hg]
    show (List.range (lhp_render_cb_pixels x w).toNat).foldl _ st.framebuffer j = _
    rw [foldl_store_apply]
    split
    · rename_i h
      exfalso
      apply hj
      rw [List.mem_map]
      refine ⟨(j - (y * (FB_WIDTH : Int) + x)).toNat, ?_, ?_⟩
      · rw [List.mem_range]; omega
      · omega
    · rfl

/-! ## The claims -/

/-- C1 (defect in the code). For every shared-flag byte `s` the client supplies, the bytes
`vnc_handshake` sends on a fresh connection are the 12 version bytes, the four bytes
`0,0,0,1` as security block, the four-byte OK value 0, the byte `s`, the name length field
`0,0,0,2`, the three name bytes "LHP", width 320 and height 240 big-endian, and the record
`0,16,1,0,1,16,8,0,0,0,11,5` followed by eight zero bytes.  The name length field is 2
although three name bytes follow, and no byte of the PixelFormat record is 31 or 63. -/
theorem vnc_handshake_wire (s : Nat) :
    (vnc_handshake (Net.fresh [[s]])).wire =
      [82, 70, 66, 32, 48, 48, 51, 46, 48, 48, 56, 10] ++ [0, 0, 0, 1] ++ [0, 0, 0, 0] ++ [s]
        ++ [0, 0, 0, 2] ++ [76, 72, 80] ++ [1, 64] ++ [0, 240]
        ++ [0, 16, 1, 0, 1, 16, 8, 0, 0, 0, 11, 5, 0, 0, 0, 0, 0, 0, 0, 0] ∧
    ((vnc_handshake (Net.fresh [[s]])).wire.drop 21).take 4 = htonl 2 ∧
    htonl 2 ≠ htonl "LHP".length ∧
    31 ∉ pf ∧ 63 ∉ pf := by
  refine ⟨?_, ?_, by decide, by decide, by decide⟩ <;>
    simp [vnc_handshake, Net.fresh, send, recv, proto, pf, htonl, htons, FB_WIDTH, FB_HEIGHT]

/-- C2 (defect in the code). On a tick with an active connection and dirty=true, with a
transport that accepts everything, the update step sends the ten bytes
`3,0,1,0,0,0,1,64,0,240` followed by the 320*240*2 framebuffer bytes: the first byte
(message type) is 3, not 0, and the header has ten bytes, not sixteen. -/
theorem update_step_wire (fb : Int → Nat) (buf : Nat → Nat) :
    (update_step { framebuffer := fb, fb_dirty := true, vnc_client := 1, buf := buf }
        (Net.fresh [])).2.wire = [3, 0, 1, 0, 0, 0, 1, 64, 0, 240] ++ framebufferBytes fb ∧
    (update_step { framebuffer := fb, fb_dirty := true, vnc_client := 1, buf := buf }
        (Net.fresh [])).2.wire.head? = some 3 ∧
    (framebufferBytes fb).length = 320 * 240 * 2 := by
  have h : (update_step { framebuffer := fb, fb_dirty := true, vnc_client := 1, buf := buf }
        (Net.fresh [])).2.wire = [3, 0, 1, 0, 0, 0, 1, 64, 0, 240] ++ framebufferBytes fb := by
    simp [update_step, send, Net.fresh, update_bytes]
  refine ⟨h, ?_, ?_⟩
  · rw [h]; rfl
  · rw [framebufferBytes_length]; rfl

/-- C4 (defect in the code). The call `lhp_render_cb(x = 0, y = -1, w = 1, linebuf)` passes
the guard, which tests upper bounds only, and stores the first pixel of `linebuf` to cell
-320, which is no cell `y' * 320 + x'` of the 320*240 store. -/
theorem lhp_render_cb_negative_row (st : State) (linebuf : Nat → Nat) :
    lhp_render_cb_writes 0 (-1) 1 = [-320] ∧
    (lhp_render_cb st 0 (-1) 1 linebuf).framebuffer (-320) = src16 linebuf 0 ∧
    ¬ ∃ x' y' : Int, 0 ≤ x' ∧ x' < 320 ∧ 0 ≤ y' ∧ y' < 240 ∧ (-320 : Int) = y' * 320 + x' := by
  refine ⟨by decide, ?_, ?_⟩
  · have hg : ¬ ((-1 : Int) ≥ (FB_HEIGHT : Int) ∨ (0 : Int) ≥ (FB_WIDTH : Int)) := by decide
    have hp : (lhp_render_cb_pixels 0 1).toNat = 1 := by decide
    unfold lhp_render_cb
    rw [if_neg hg]
    dsimp only
    rw [hp, foldl_store_apply]
    simp [FB_WIDTH]
  · rintro ⟨x', y', h1, h2, h3, h4, h5⟩
    omega

/-- C9 (defect in the code). `fb_clear(color)` never touches the dirty flag: called with
dirty=false, for every color, it rewrites the framebuffer (pixel (0,0) becomes the byte
`color >> 8` twice) and leaves dirty=false, whereas `lhp_render_cb` called from the same
state with a one-pixel line at (0,0) leaves dirty=true. -/
theorem fb_clear_leaves_dirty_false (fb : Int → Nat) (c : Int) (buf : Nat → Nat)
    (color : Nat) (linebuf : Nat → Nat) :
    (fb_clear { framebuffer := fb, fb_dirty := false, vnc_client := c, buf := buf }
      color).fb_dirty = false ∧
    (fb_clear { framebuffer := fb, fb_dirty := false, vnc_client := c, buf := buf }
      color).pixel 0 0 = memsetCell ((color >>> 8) % 256) ∧
    (lhp_render_cb { framebuffer := fb, fb_dirty := false, vnc_client := c, buf := buf }
      0 0 1 linebuf).fb_dirty = true := by
  refine ⟨rfl, ?_, ?_⟩
  · have hin : (0 : Int) ≤ 0 * (FB_WIDTH : Int) + 0 ∧
        (0 : Int) * (FB_WIDTH : Int) + 0 < ((FB_WIDTH * FB_HEIGHT : Nat) : Int) := by decide
    unfold fb_clear State.pixel
    dsimp only
    rw [if_pos hin]
  · have hg : ¬ ((0 : Int) ≥ (FB_HEIGHT : Int) ∨ (0 : Int) ≥ (FB_WIDTH : Int)) := by decide
    unfold lhp_render_cb
    rw [if_neg hg]

/-- C10 (defect in the code). The loading screen `fb_clear(0xF800)` of `browser_load_url`
fills the store bytewise with 0xF8: every pixel becomes 0xF8F8, not 0xF800. -/
theorem browser_load_url_fill (st : State) (x : Fin 320) (y : Fin 240) :
    (browser_load_url st).pixel ((x : Nat) : Int) ((y : Nat) : Int) = 0xF8F8 ∧
    (browser_load_url st).pixel ((x : Nat) : Int) ((y : Nat) : Int) ≠ 0xF800 := by
  have hx := x.isLt
  have hy := y.isLt
  have hin : 0 ≤ ((y : Nat) : Int) * (FB_WIDTH : Int) + ((x : Nat) : Int) ∧
      ((y : Nat) : Int) * (FB_WIDTH : Int) + ((x : Nat) : Int)
        < ((FB_WIDTH * FB_HEIGHT : Nat) : Int) := by
    simp only [FB_WIDTH, FB_HEIGHT]
    push_cast
    omega
  have h : (browser_load_url st).pixel ((x : Nat) : Int) ((y : Nat) : Int) = 0xF8F8 := by
    unfold browser_load_url fb_clear State.pixel
    simp only []
    rw [if_pos hin]
    decide
  rw [h]
  exact ⟨rfl, by decide⟩

/-- C3 (defect in the code). The PointerEvent for x=10, y=10 (bytes 3, buttonMask, 0, 10,
0, 10) received on its own changes no framebuffer pixel and leaves dirty as it was, for
every button mask, prior framebuffer, prior dirty flag and prior content of `buf`: y is
decoded from `buf[5]` and `buf[6]`, which gives at least 2560.  Pixel (10,10) is not set
and dirty does not become true. -/
theorem input_step_pointer_10_10 (fb : Int → Nat) (dirty : Bool) (buf : Nat → Nat)
    (buttonMask : Nat) :
    (input_step { framebuffer := fb, fb_dirty := dirty, vnc_client := 1, buf := buf }
      (Net.fresh [clientPointerEvent buttonMask 10 10])).1.framebuffer = fb ∧
    (input_step { framebuffer := fb, fb_dirty := dirty, vnc_client := 1, buf := buf }
      (Net.fresh [clientPointerEvent buttonMask 10 10])).1.fb_dirty = dirty := by
  rw [input_step_recv _ _ (clientPointerEvent buttonMask 10 10) []
    (show (1 : Int) > 0 by decide) rfl
    (by simp [clientPointerEvent]) (by simp [clientPointerEvent])]
  have h5 : fillBuf buf (clientPointerEvent buttonMask 10 10) 5 % 256 = 10 := by
    simp [fillBuf, clientPointerEvent]
  have hy : ¬ (256 * (fillBuf buf (clientPointerEvent buttonMask 10 10) 5 % 256)
      + fillBuf buf (clientPointerEvent buttonMask 10 10) 6 % 256 < 240) := by
    rw [h5]; omega
  rw [if_neg (fun h => hy h.2.2)]
  exact ⟨rfl, rfl⟩

/-- C7 (defect in the code). The received buffer 3, 0, 0, 10, 1, 0, 5 starts with the
PointerEvent for x=10, y=256, which is out of range, followed by the byte 5.  The handler
decodes y from the last PointerEvent byte and the byte after it, gets 5, stores 0xFFFF to
cell 5*320+10 and sets dirty, from dirty=false. -/
theorem input_step_pointer_out_of_range (fb : Int → Nat) (buf : Nat → Nat) :
    clientPointerEvent 0 10 256 ++ [5] = [3, 0, 0, 10, 1, 0, 5] ∧
    (input_step { framebuffer := fb, fb_dirty := false, vnc_client := 1, buf := buf }
      (Net.fresh [clientPointerEvent 0 10 256 ++ [5]])).1.framebuffer 1610 = 0xFFFF ∧
    (input_step { framebuffer := fb, fb_dirty := false, vnc_client := 1, buf := buf }
      (Net.fresh [clientPointerEvent 0 10 256 ++ [5]])).1.fb_dirty = true := by
  have hcond : fillBuf buf (clientPointerEvent 0 10 256 ++ [5]) 0 % 256 = 3 ∧
      256 * (fillBuf buf (clientPointerEvent 0 10 256 ++ [5]) 2 % 256)
        + fillBuf buf (clientPointerEvent 0 10 256 ++ [5]) 3 % 256 < 320 ∧
      256 * (fillBuf buf (clientPointerEvent 0 10 256 ++ [5]) 5 % 256)
        + fillBuf buf (clientPointerEvent 0 10 256 ++ [5]) 6 % 256 < 240 := by
    simp [fillBuf, clientPointerEvent]
  have h2 : fillBuf buf (clientPointerEvent 0 10 256 ++ [5]) 2 = 0 := by
    simp [fillBuf, clientPointerEvent]
  have h3 : fillBuf buf (clientPointerEvent 0 10 256 ++ [5]) 3 = 10 := by
    simp [fillBuf, clientPointerEvent]
  have h5 : fillBuf buf (clientPointerEvent 0 10 256 ++ [5]) 5 = 0 := by
    simp [fillBuf, clientPointerEvent]
  have h6 : fillBuf buf (clientPointerEvent 0 10 256 ++ [5]) 6 = 5 := by
    simp [fillBuf, clientPointerEvent]
  rw [input_step_recv _ _ (clientPointerEvent 0 10 256 ++ [5]) []
    (show (1 : Int) > 0 by decide) rfl (by simp [clientPointerEvent])
    (by simp [clientPointerEvent]), if_pos hcond, h2, h3, h5, h6]
  refine ⟨by decide, ?_, rfl⟩
  simp [store]

/-- C8, refuted as stated. On a tick with an active connection and dirty=true in which
both sends fail and no client data is pending, nothing reaches the wire and dirty is false
after the tick. -/
theorem vnc_task_tick_failed_send_cex :
    (vnc_task_tick (blankState true) failingNet).map (fun r => (r.1.fb_dirty, r.2.wire))
      = some (false, []) := by
  simp [vnc_task_tick, accept_step, update_step, input_step, send, recv, blankState,
    failingNet]

/-- C8, amended. In the update step of `vnc_task` the dirty flag is cleared once the two
sends have been issued, whatever they return: for every tick with an active connection and
dirty=true and every transport behaviour (failed and short sends included) dirty is false
after the update step, the framebuffer is unchanged, and when no client data is pending
dirty is false after the tick. -/
theorem update_step_clears_dirty (st : State) (net : Net) (hc : st.vnc_client > 0)
    (hd : st.fb_dirty = true) :
    (update_step st net).1.fb_dirty = false ∧
    (update_step st net).1.framebuffer = st.framebuffer ∧
    (net.rx = [] → ∃ r, vnc_task_tick st net = some r ∧ r.1.fb_dirty = false) := by
  refine ⟨update_step_dirty_of_active st net hc, ?_, ?_⟩
  · unfold update_step
    rw [if_pos ⟨hc, hd⟩]
  · intro hrx
    have hnc : ¬ st.vnc_client ≤ 0 := by omega
    have hrx2 : (update_step st net).2.rx = [] := by
      unfold update_step
      rw [if_pos ⟨hc, hd⟩]
      unfold send
      cases net.sendResults with
      | nil => simpa using hrx
      | cons r rs =>
        cases rs with
        | nil => by_cases hr : r < 0 <;> simp [hr, hrx]
        | cons r2 rs2 =>
          by_cases hr : r < 0 <;> by_cases hr2 : r2 < 0 <;> simp [hr, hr2, hrx]
    have hc2 : (update_step st net).1.vnc_client > 0 := by
      unfold update_step
      rw [if_pos ⟨hc, hd⟩]
      exact hc
    refine ⟨input_step (update_step st net).1 (update_step st net).2, ?_, ?_⟩
    · unfold vnc_task_tick accept_step
      rw [if_neg hnc]
    · unfold input_step
      rw [if_pos hc2]
      unfold recv
      rw [hrx2]
      exact update_step_dirty_of_active st net hc

/-- C8 amended, at a concrete tick: both sends fail, dirty is false after the update
step. -/
theorem update_step_clears_dirty_witness :
    ((blankState true).vnc_client > 0 ∧ (blankState true).fb_dirty = true) ∧
    (update_step (blankState true) failingNet).1.fb_dirty = false :=
  ⟨by decide, (update_step_clears_dirty (blankState true) failingNet (by decide) rfl).1⟩

end ESPBrowser
